import Mathlib

/-!
Shallow embedding of the order-service core (order lifecycle, stock store,
order store, transaction coordinator) of the repository under verification.

The TypeScript source keeps products and orders in MongoDB collections and
threads a mongoose session through multi-write operations.  Here the two
collections are a single explicit `State`; every service operation is a
function `State → State × Except ApiErr Result`, where the returned state is
the durable state after the call (unchanged whenever the call fails, because
the transaction coordinator aborts the session on any error).

Modelling conventions:
- Mongo ObjectIds are opaque strings (products) / naturals (orders).
- Monetary amounts, quantities and stock are `Int` (the source stores
  JavaScript numbers; stock is mutated with an unclamped `$inc`, and mongoose
  update validators do not run on `$inc`, so stock is not clamped at zero by
  the store layer — hence `Int`, not `Nat`).
- `populate` on reads is ignored: `findById` returns the stored record with
  plain identities, which is the repository-contract view used by the service.
-/

namespace OrderCore

/-- All error classes in the source (`ValidationError`, `NotFoundError`,
`ConflictError`, ...) are subclasses of `ApiError(message, statusCode)` that
only fix the status code, so a single structure models the whole taxonomy. -/
structure ApiErr where
  message : String
  statusCode : Nat
deriving DecidableEq, Repr

/-- `ValidationError` from error.middleware: an `ApiError` with status 400. -/
def validationError (msg : String) : ApiErr := ⟨msg, 400⟩

/-- `ConflictError` from error.middleware: an `ApiError` with status 409. -/
def conflictError (msg : String) : ApiErr := ⟨msg, 409⟩

/-- Plain `ApiError(message, statusCode)` as thrown directly by the service. -/
def apiError (msg : String) (code : Nat) : ApiErr := ⟨msg, code⟩

/-- The spec's `ValidationError` category: any error carrying status 400. -/
def ApiErr.isValidation (e : ApiErr) : Prop := e.statusCode = 400

/-- The spec's `AuthorizationError` category: any error carrying status 403
(the source throws `ApiError('Access denied', 403)`). -/
def ApiErr.isAuthorization (e : ApiErr) : Prop := e.statusCode = 403

/-- The spec's `NotFoundError` category: any error carrying status 404. -/
def ApiErr.isNotFound (e : ApiErr) : Prop := e.statusCode = 404

/-- The spec's `ConflictError` category: any error carrying status 409. -/
def ApiErr.isConflict (e : ApiErr) : Prop := e.statusCode = 409

/-- A catalog product (models/Product): name, price in cents, stock. -/
structure Product where
  name : String
  price : Int
  stock : Int
deriving DecidableEq, Repr

/-- An order line item (models/Order): item identity, quantity and the unit
price snapshotted at order-creation time. -/
structure OrderItem where
  productId : String
  quantity : Int
  unitPrice : Int
deriving DecidableEq, Repr

/-- Order status enum: 'created' | 'paid' | 'cancelled'. -/
inductive OrderStatus where
  | created
  | paid
  | cancelled
deriving DecidableEq, Repr

/-- A persisted order (models/Order). -/
structure Order where
  id : Nat
  userId : String
  items : List OrderItem
  total : Int
  status : OrderStatus
deriving DecidableEq, Repr

/-- The two persistent collections plus the id counter standing in for
ObjectId generation on order creation. -/
structure State where
  products : List (String × Product)
  orders : List Order
  nextOrderId : Nat
deriving DecidableEq, Repr

/-- `Product.findById`: first (unique, in a real store) entry with the id. -/
def findProduct (s : State) (pid : String) : Option Product :=
  (s.products.find? (fun r => r.1 == pid)).map (fun r => r.2)

namespace ProductRepositoryImpl

/-- product.repository `updateStock`: `findByIdAndUpdate(pid, {$inc: {stock}})`
with `new: true`.  If the product exists its stock is incremented by `change`
and the updated document is returned; if it does not exist nothing changes and
`null` (here `none`) is returned — no error is raised. -/
def updateStock (pid : String) (change : Int) (s : State) : Option Product × State :=
  let products := s.products.map (fun r =>
    if r.1 == pid then (r.1, { r.2 with stock := r.2.stock + change }) else r)
  let s' : State := { s with products := products }
  (findProduct s' pid, s')

/-- product.repository `findByIds`: `find({_id: {$in: ids}})` — every stored
document whose id occurs in `ids`, each document at most once, in store order. -/
def findByIds (ids : List String) (s : State) : List (String × Product) :=
  s.products.filter (fun r => ids.contains r.1)

end ProductRepositoryImpl

namespace ProductService

/-- product.service `updateProductStock`: delegates to the repository's
`updateStock` (plus a debug log when the product was found). -/
def updateProductStock (pid : String) (change : Int) (s : State) :
    Option Product × State :=
  ProductRepositoryImpl.updateStock pid change s

/-- product.service `getProductsByIds`: delegates to `findByIds`. -/
def getProductsByIds (ids : List String) (s : State) : List (String × Product) :=
  ProductRepositoryImpl.findByIds ids s

end ProductService

namespace OrderRepositoryImpl

/-- order.repository `create`: builds the order with
`total = items.reduce((sum, i) => sum + i.quantity * i.unitPrice, 0)` and
status 'created', and saves it inside the caller's session. -/
def create (userId : String) (items : List OrderItem) (s : State) : Order × State :=
  let o : Order :=
    { id := s.nextOrderId
      userId := userId
      items := items
      total := items.foldl (fun sum i => sum + i.quantity * i.unitPrice) 0
      status := OrderStatus.created }
  (o, { s with orders := s.orders ++ [o], nextOrderId := s.nextOrderId + 1 })

/-- order.repository `findById` (the populate of item/user details on the read
side is presentation only and not modelled). -/
def findById (oid : Nat) (s : State) : Option Order :=
  s.orders.find? (fun o => o.id == oid)

/-- order.repository `updateStatus`: `findByIdAndUpdate(id, {$set: {status}})`
with `new: true`; returns the updated order, or `none` when no such order. -/
def updateStatus (oid : Nat) (st : OrderStatus) (s : State) : Option Order × State :=
  let orders := s.orders.map (fun o => if o.id == oid then { o with status := st } else o)
  let s' : State := { s with orders := orders }
  (findById oid s', s')

/-- order.repository `withTransaction`: starts a session, runs the callback,
commits on success, and on any failure aborts the transaction (every write
issued in the scope is discarded, so the durable state is the entry state) and
rethrows the very same error. -/
def withTransaction {α : Type} (work : State → Except ApiErr (State × α))
    (s : State) : State × Except ApiErr α :=
  match work s with
  | Except.ok (s', a) => (s', Except.ok a)
  | Except.error e => (s, Except.error e)

end OrderRepositoryImpl

/-- A requested order line as received by `createOrder`. -/
structure CreateItem where
  productId : String
  quantity : Int
deriving DecidableEq, Repr

/-- Service result: the order plus an informational message. -/
structure OrderResult where
  order : Order
  message : String
deriving DecidableEq, Repr

/-- Stand-in for the non-null assertion `productMap.get(id)!` in the source:
after the earlier validations every lookup succeeds, so this default is
unreachable on every path that uses it (see the lemmas below). -/
def defaultProduct : Product := { name := "", price := 0, stock := 0 }

namespace OrderService

/-- order.service `createOrder`, line by line: reject empty item lists and
non-positive quantities; batch-resolve the product ids and reject when fewer
products than ids come back; check stock sufficiency per line against the
resolved products; then, inside one `withTransaction` scope, persist the order
(with unit-price snapshots) and decrement stock for every line. -/
def createOrder (userId : String) (items : List CreateItem) (s : State) :
    State × Except ApiErr OrderResult :=
  if items.isEmpty then
    (s, Except.error (validationError "Order must contain at least one item"))
  else if items.any (fun i => decide (i.quantity ≤ 0)) then
    (s, Except.error (validationError "Quantity must be greater than 0"))
  else
    let productIds := items.map (fun i => i.productId)
    let products := ProductService.getProductsByIds productIds s
    if products.length ≠ productIds.length then
      let foundIds := products.map (fun r => r.1)
      let missingIds := productIds.filter (fun pid => !(foundIds.contains pid))
      (s, Except.error (validationError
        ("Products not found: " ++ String.intercalate ", " missingIds)))
    else
      let productMap := fun pid => (products.find? (fun r => r.1 == pid)).map (fun r => r.2)
      match items.find? (fun i =>
          decide (((productMap i.productId).getD defaultProduct).stock < i.quantity)) with
      | some i =>
          let p := (productMap i.productId).getD defaultProduct
          (s, Except.error (validationError
            ("Insufficient stock for product \"" ++ p.name ++ "\". Available: "
              ++ toString p.stock ++ ", Requested: " ++ toString i.quantity)))
      | none =>
          let orderItems : List OrderItem := items.map (fun i =>
            { productId := i.productId
              quantity := i.quantity
              unitPrice := ((productMap i.productId).getD defaultProduct).price })
          OrderRepositoryImpl.withTransaction (fun s0 =>
            let res := OrderRepositoryImpl.create userId orderItems s0
            let s2 := items.foldl (fun st i =>
              (ProductService.updateProductStock i.productId (-i.quantity) st).2) res.2
            Except.ok (s2, { order := res.1, message := "Order created successfully" })) s

/-- order.service `payOrder`: not-found and access checks, then the status
dispatch — already 'paid' is an idempotent success, 'cancelled' is a 409
conflict, and 'created' transitions to 'paid' (the source's final branch for
any other status is dead code: the enum has exactly these three values).
The source's `updatedOrder!` cannot be null here because the order was just
found, so the `getD order` fallback is unreachable. -/
def payOrder (oid : Nat) (userId : String) (isAdmin : Bool) (s : State) :
    State × Except ApiErr OrderResult :=
  match OrderRepositoryImpl.findById oid s with
  | none => (s, Except.error (apiError "Order not found" 404))
  | some order =>
    if !isAdmin && order.userId != userId then
      (s, Except.error (apiError "Access denied" 403))
    else
      match order.status with
      | OrderStatus.paid =>
          (s, Except.ok { order := order, message := "Order is already paid" })
      | OrderStatus.cancelled =>
          (s, Except.error (conflictError "Cannot pay for a cancelled order"))
      | OrderStatus.created =>
          let res := OrderRepositoryImpl.updateStatus oid OrderStatus.paid s
          (res.2, Except.ok { order := res.1.getD order, message := "Payment successful" })

/-- order.service `cancelOrder`: not-found and access checks; already
'cancelled' is an idempotent success; otherwise (status 'created' or 'paid' —
cancelling a paid order is allowed by design, with only a warning logged, and
the source's other-status branch is dead code for the three-value enum) the
status update and the per-line stock restoration run in one `withTransaction`
scope.  As in `payOrder`, the `getD order` fallback is unreachable. -/
def cancelOrder (oid : Nat) (userId : String) (isAdmin : Bool) (s : State) :
    State × Except ApiErr OrderResult :=
  match OrderRepositoryImpl.findById oid s with
  | none => (s, Except.error (apiError "Order not found" 404))
  | some order =>
    if !isAdmin && order.userId != userId then
      (s, Except.error (apiError "Access denied" 403))
    else
      match order.status with
      | OrderStatus.cancelled =>
          (s, Except.ok { order := order, message := "Order is already cancelled" })
      | _ =>
          OrderRepositoryImpl.withTransaction (fun s0 =>
            let res := OrderRepositoryImpl.updateStatus oid OrderStatus.cancelled s0
            let s2 := order.items.foldl (fun st i =>
              (ProductService.updateProductStock i.productId i.quantity st).2) res.2
            Except.ok (s2, { order := res.1.getD order, message := "Order cancelled successfully" })) s

end OrderService

/-! ### Proof-layer definitions -/

/-- The product map built inside `createOrder` (a JS `Map` over the batch
lookup result), as a standalone function for use in statements. -/
def pMap (items : List CreateItem) (s : State) (pid : String) : Option Product :=
  ((ProductService.getProductsByIds (items.map (fun i => i.productId)) s).find?
    (fun r => r.1 == pid)).map (fun r => r.2)

/-- The line items `createOrder` persists: requested id and quantity plus the
unit price snapshotted from the catalog. -/
def snapItems (items : List CreateItem) (s : State) : List OrderItem :=
  items.map (fun i =>
    { productId := i.productId
      quantity := i.quantity
      unitPrice := ((pMap items s i.productId).getD defaultProduct).price })

/-- Total quantity of `pid` requested across all lines of a create call. -/
def requestedQty (items : List CreateItem) (pid : String) : Int :=
  ((items.filter (fun i => i.productId == pid)).map (fun i => i.quantity)).sum

/-- Every stored stock quantity is non-negative. -/
def StockNonneg (s : State) : Prop := ∀ r ∈ s.products, 0 ≤ r.2.stock

/-- Product identities are unique in the store (Mongo enforces unique ids). -/
def KeysNodup (s : State) : Prop := (s.products.map Prod.fst).Nodup

/-- Every stored order line has a positive quantity (the order schema
validates `quantity ≥ 1` on save). -/
def QtyPos (s : State) : Prop := ∀ o ∈ s.orders, ∀ i ∈ o.items, 0 < i.quantity

/-- The state well-formedness invariant threaded through operation sequences. -/
def Inv (s : State) : Prop := KeysNodup s ∧ QtyPos s ∧ StockNonneg s

/-- One externally requested operation, run to completion (claim C2's
sequential model: create and cancel calls). -/
inductive Op where
  | create (userId : String) (items : List CreateItem)
  | cancel (orderId : Nat) (userId : String) (isAdmin : Bool)
deriving Repr

/-- The durable state after one operation (results and errors discarded). -/
def applyOp (s : State) : Op → State
  | Op.create u its => (OrderService.createOrder u its s).1
  | Op.cancel oid u a => (OrderService.cancelOrder oid u a s).1

/-- The durable state after a sequence of operations. -/
def runOps (s : State) (ops : List Op) : State := ops.foldl applyOp s

/-! ### Concrete states for witnesses (the spec's test scenarios) -/

/-- Catalog of the spec's scenarios: item A stock 10 price 500, item B
(the "Limited" item) stock 2 price 1000; no orders yet. -/
def exState : State :=
  { products := [("A", { name := "Laptop", price := 500, stock := 10 }),
                 ("B", { name := "Limited", price := 1000, stock := 2 })]
    orders := []
    nextOrderId := 0 }

/-- `exState` after a successful create of 3 × A by u1. -/
def exStateAfterCreate : State :=
  { products := [("A", { name := "Laptop", price := 500, stock := 7 }),
                 ("B", { name := "Limited", price := 1000, stock := 2 })]
    orders := [{ id := 0, userId := "u1"
                 items := [{ productId := "A", quantity := 3, unitPrice := 500 }]
                 total := 1500, status := OrderStatus.created }]
    nextOrderId := 1 }

/-- The order persisted by that create call. -/
def exOrder : Order :=
  { id := 0, userId := "u1"
    items := [{ productId := "A", quantity := 3, unitPrice := 500 }]
    total := 1500, status := OrderStatus.created }

/-- A catalog state holding one order already in status 'paid'. -/
def exPaidState : State :=
  { exState with orders := [{ exOrder with status := OrderStatus.paid }] }

/-- A catalog state holding one order already in status 'cancelled'. -/
def exCancelledState : State :=
  { exState with orders := [{ exOrder with status := OrderStatus.cancelled }] }

/-- A catalog state holding one order in status 'created'. -/
def exCreatedState : State :=
  { exState with orders := [exOrder] }

/-- A failing unit of work, for exercising the rollback path. -/
def exFailingWork : State → Except ApiErr (State × Unit) :=
  fun _ => Except.error (validationError "boom")

/-- A one-product catalog for the duplicate-line scenario: p1 has stock 3, so
two lines of quantity 2 each pass the per-line check but sum to 4. -/
def exDupState : State :=
  { products := [("p1", { name := "Gadget", price := 100, stock := 3 })]
    orders := []
    nextOrderId := 0 }

/-! ### General list lemmas -/

/-- `find?` commutes with a map that leaves the search predicate invariant. -/
theorem find?_map_comm {α : Type} (f : α → α) (p : α → Bool)
    (h : ∀ x, p (f x) = p x) :
    ∀ l : List α, (l.map f).find? p = (l.find? p).map f := by
  intro l
  induction l with
  | nil => rfl
  | cons a l ih =>
    rw [List.map_cons]
    cases hpa : p a
    · rw [List.find?_cons_of_neg _ (by simp [h a, hpa]),
        List.find?_cons_of_neg _ (by simp [hpa])]
      exact ih
    · rw [List.find?_cons_of_pos _ (by rw [h a]; exact hpa),
        List.find?_cons_of_pos _ hpa]
      rfl

/-- Filtering by a weaker predicate does not change the first hit of a
stronger one. -/
theorem find?_filter_weaker {α : Type} (p q : α → Bool)
    (h : ∀ x, p x = true → q x = true) :
    ∀ l : List α, (l.filter q).find? p = l.find? p := by
  intro l
  induction l with
  | nil => rfl
  | cons a l ih =>
    by_cases hq : q a
    · rw [List.filter_cons_of_pos hq]
      cases hpa : p a
      · rw [List.find?_cons_of_neg _ (by simp [hpa]), List.find?_cons_of_neg _ (by simp [hpa])]
        exact ih
      · rw [List.find?_cons_of_pos _ hpa, List.find?_cons_of_pos _ hpa]
    · have hpa : p a = false := by
        cases hpa2 : p a
        · rfl
        · exact absurd (h a hpa2) (by simp [hq])
      rw [List.filter_cons_of_neg (by simp [hq]), List.find?_cons_of_neg _ (by simp [hpa])]
      exact ih

/-- In an association list with distinct keys, looking up the key of a member
returns exactly that member. -/
theorem assoc_find?_of_mem {l : List (String × Product)}
    (hn : (l.map Prod.fst).Nodup) {r : String × Product} (hr : r ∈ l) :
    l.find? (fun x => x.1 == r.1) = some r := by
  induction l with
  | nil => cases hr
  | cons a l ih =>
    rcases List.mem_cons.mp hr with h | h
    · subst h
      exact List.find?_cons_of_pos _ (by simp)
    · have ha : a.1 ≠ r.1 := by
        have h1 : r.1 ∈ l.map Prod.fst := List.mem_map_of_mem _ h
        have h2 : a.1 ∉ l.map Prod.fst := (List.nodup_cons.mp hn).1
        intro he
        exact h2 (he ▸ h1)
      rw [List.find?_cons_of_neg _ (by simp [ha])]
      exact ih (List.nodup_cons.mp hn).2 h

/-- A left fold of additions equals the initial value plus the mapped sum. -/
theorem foldl_add_eq_sum {β : Type} (f : β → Int) :
    ∀ (l : List β) (a : Int),
      l.foldl (fun sum i => sum + f i) a = a + (l.map f).sum := by
  intro l
  induction l with
  | nil => intro a; simp
  | cons i l ih => intro a; simp [ih, add_assoc]

/-- When the mapped keys are distinct, filtering a list by the key of one of
its members keeps exactly that member. -/
theorem filter_eq_singleton_of_nodup {β : Type} (f : β → String) :
    ∀ {l : List β}, (l.map f).Nodup → ∀ {i}, i ∈ l →
      l.filter (fun j => f j == f i) = [i] := by
  intro l
  induction l with
  | nil => intro _ i hi; cases hi
  | cons a l ih =>
    intro hn i hi
    rcases List.mem_cons.mp hi with h | h
    · subst h
      rw [List.filter_cons_of_pos (by simp)]
      have hrest : l.filter (fun j => f j == f i) = [] := by
        rw [List.filter_eq_nil_iff]
        intro j hj
        have h2 : f i ∉ l.map f := (List.nodup_cons.mp hn).1
        simp only [beq_iff_eq]
        intro he
        exact h2 (he ▸ List.mem_map_of_mem f hj)
      rw [hrest]
    · have ha : f a ≠ f i := by
        have h1 : f i ∈ l.map f := List.mem_map_of_mem f h
        have h2 : f a ∉ l.map f := (List.nodup_cons.mp hn).1
        intro he
        exact h2 (he ▸ h1)
      rw [List.filter_cons_of_neg (by simp [ha])]
      exact ih (List.nodup_cons.mp hn).2 h

/-- When no member of the list carries key `pid`, the key filter is empty. -/
theorem filter_eq_nil_of_not_mem {β : Type} (f : β → String) {l : List β}
    {pid : String} (h : ∀ i ∈ l, f i ≠ pid) :
    l.filter (fun j => f j == pid) = [] := by
  rw [List.filter_eq_nil_iff]
  intro j hj
  simp only [beq_iff_eq]
  exact h j hj

/-! ### Closed form of the per-line stock update loops -/

/-- The loop `for i of items: updateProductStock(f i, g i, session)` adds, to
every stored product, the summed changes of the lines naming it; nothing else
in the state moves. -/
theorem foldl_updateStock_eq {β : Type} (f : β → String) (g : β → Int) :
    ∀ (items : List β) (s : State),
    items.foldl (fun st i => (ProductService.updateProductStock (f i) (g i) st).2) s
      = { s with products := s.products.map (fun r => (r.1,
            { r.2 with stock := r.2.stock
                + ((items.filter (fun i => f i == r.1)).map g).sum })) } := by
  intro items
  induction items with
  | nil =>
    intro s
    have h1 : s.products.map (fun r => (r.1,
        { r.2 with stock := r.2.stock
            + ((([] : List β).filter (fun i => f i == r.1)).map g).sum }))
        = s.products.map id := by
      apply List.map_congr_left
      intro r _
      simp
    rw [List.foldl_nil, h1, List.map_id]
  | cons i items ih =>
    intro s
    rw [List.foldl_cons, ih]
    simp only [ProductService.updateProductStock, ProductRepositoryImpl.updateStock,
      List.map_map, State.mk.injEq, and_true]
    apply List.map_congr_left
    intro r _
    by_cases hr : r.1 = f i
    · have hb : (r.1 == f i) = true := by simp [hr]
      have hb' : (f i == r.1) = true := by simp [hr]
      simp only [Function.comp_apply, hb, if_true, List.filter_cons, hb',
        List.map_cons, List.sum_cons, add_assoc]
    · have hb : (r.1 == f i) = false := by simp [hr]
      have hb' : (f i == r.1) = false := by
        simp only [beq_eq_false_iff_ne, ne_eq]
        intro he
        exact hr he.symm
      simp only [Function.comp_apply, hb, Bool.false_eq_true, if_false,
        List.filter_cons, hb']

/-- Pointwise reading of the loop: each product's stock after the loop is its
stock before plus the summed changes of the lines that name it. -/
theorem findProduct_foldl_updateStock {β : Type} (f : β → String) (g : β → Int)
    (items : List β) (s : State) (pid : String) :
    findProduct (items.foldl (fun st i =>
        (ProductService.updateProductStock (f i) (g i) st).2) s) pid
      = (findProduct s pid).map (fun p =>
          { p with stock := p.stock + ((items.filter (fun i => f i == pid)).map g).sum }) := by
  rw [foldl_updateStock_eq]
  show (((s.products.map _).find? _).map _) = _
  have hcomm := find?_map_comm (fun r : String × Product => (r.1,
    { r.2 with stock := r.2.stock + ((items.filter (fun i => f i == r.1)).map g).sum }))
    (fun r => r.1 == pid) (fun x => rfl) s.products
  rw [hcomm]
  unfold findProduct
  cases hfind : s.products.find? (fun r => r.1 == pid) with
  | none => rfl
  | some r =>
    have hkey : r.1 = pid := by
      have h1 := List.find?_some hfind
      simpa using h1
    simp [hkey]

/-- `updateStatus` touches only the named order's status and returns it. -/
theorem updateStatus_eq (oid : Nat) (st : OrderStatus) (s : State) :
    OrderRepositoryImpl.updateStatus oid st s
      = ((OrderRepositoryImpl.findById oid s).map (fun o => { o with status := st }),
         { s with orders := s.orders.map (fun o =>
             if o.id == oid then { o with status := st } else o) }) := by
  unfold OrderRepositoryImpl.updateStatus OrderRepositoryImpl.findById
  simp only [Prod.mk.injEq, and_true]
  show ((s.orders.map _).find? _) = _
  have hcomm := find?_map_comm (fun o : Order => if o.id == oid then { o with status := st } else o)
    (fun o => o.id == oid) (fun o => by by_cases h : o.id = oid <;> simp [h]) s.orders
  rw [hcomm]
  cases hfind : s.orders.find? (fun o => o.id == oid) with
  | none => rfl
  | some o =>
    have hkey : o.id = oid := by
      have h1 := List.find?_some hfind
      simpa using h1
    simp [hkey]

/-! ### Branch analysis of createOrder -/

/-- Every outcome of `createOrder` is either a committed success or a
`ValidationError` raised before any mutation (the entry state is returned
untouched): all four rejection branches precede the transaction, and the
transactional work itself cannot fail. -/
theorem createOrder_cases (u : String) (items : List CreateItem) (s : State) :
    (∃ s' res, OrderService.createOrder u items s = (s', Except.ok res)) ∨
    (∃ msg, OrderService.createOrder u items s = (s, Except.error (validationError msg))) := by
  simp only [OrderService.createOrder]
  split
  · exact Or.inr ⟨_, rfl⟩
  split
  · exact Or.inr ⟨_, rfl⟩
  split
  · exact Or.inr ⟨_, rfl⟩
  split
  · exact Or.inr ⟨_, rfl⟩
  · exact Or.inl ⟨_, _, rfl⟩

/-- On the success path of `createOrder` all validations passed, the result is
the repository-created order over the snapshotted line items, and the final
state is the created order plus the per-line stock decrements. -/
theorem createOrder_ok_shape {u : String} {items : List CreateItem} {s s' : State}
    {res : OrderResult}
    (h : OrderService.createOrder u items s = (s', Except.ok res)) :
    items ≠ [] ∧
    (∀ i ∈ items, 0 < i.quantity) ∧
    (ProductService.getProductsByIds (items.map (fun i => i.productId)) s).length
      = items.length ∧
    (∀ i ∈ items, i.quantity ≤ ((pMap items s i.productId).getD defaultProduct).stock) ∧
    res = { order := (OrderRepositoryImpl.create u (snapItems items s) s).1
            message := "Order created successfully" } ∧
    s' = items.foldl (fun st i =>
        (ProductService.updateProductStock i.productId (-i.quantity) st).2)
      (OrderRepositoryImpl.create u (snapItems items s) s).2 := by
  simp only [OrderService.createOrder] at h
  split at h
  next hempty => simp at h
  next hempty =>
  split at h
  next hqty => simp at h
  next hqty =>
  split at h
  next hlen => simp at h
  next hlen =>
  split at h
  next i heq => simp at h
  next hfind =>
  simp only [OrderRepositoryImpl.withTransaction, Prod.mk.injEq, Except.ok.injEq] at h
  obtain ⟨hs', hres⟩ := h
  refine ⟨?_, ?_, ?_, ?_, ?_, ?_⟩
  · intro hnil
    exact hempty (by simp [hnil])
  · intro i hi
    have h1 : ¬ (decide (i.quantity ≤ 0) = true) := by
      intro hdec
      exact hqty (List.any_eq_true.mpr ⟨i, hi, hdec⟩)
    simpa using h1
  · have h1 := not_not.mp hlen
    simpa using h1
  · intro i hi
    have h1 := List.find?_eq_none.mp hfind i hi
    simp only [decide_eq_true_eq] at h1
    simp only [pMap, snapItems]
    exact le_of_not_lt h1
  · simp only [snapItems, pMap]
    exact hres.symm
  · simp only [snapItems, pMap]
    exact hs'.symm

/-- With unique keys in the store, a batch lookup that returns as many records
as requested ids forces the requested ids to be pairwise distinct: the lookup
returns each matching stored document once, so duplicated ids always make the
count come up short. -/
theorem ids_nodup_of_findByIds_length {ids : List String} {s : State}
    (hn : KeysNodup s)
    (hlen : (ProductService.getProductsByIds ids s).length = ids.length) :
    ids.Nodup := by
  simp only [ProductService.getProductsByIds, ProductRepositoryImpl.findByIds] at hlen
  have hknd : ((s.products.filter (fun r => ids.contains r.1)).map Prod.fst).Nodup :=
    ((List.filter_sublist _).map Prod.fst).nodup hn
  have hsubset : (s.products.filter (fun r => ids.contains r.1)).map Prod.fst ⊆ ids.dedup := by
    intro k hk
    obtain ⟨r, hr, hrk⟩ := List.mem_map.mp hk
    have hc := List.of_mem_filter hr
    apply List.mem_dedup.mpr
    subst hrk
    simpa using hc
  have h1 : ((s.products.filter (fun r => ids.contains r.1)).map Prod.fst).length
      ≤ ids.dedup.length := (hknd.subperm hsubset).length_le
  rw [List.length_map, hlen] at h1
  have h4 : ids.dedup.length ≤ ids.length := (List.dedup_sublist ids).length_le
  exact List.dedup_eq_self.mp ((List.dedup_sublist ids).eq_of_length (le_antisymm h4 h1))

/-- For a requested id, the in-memory product map built by `createOrder`
agrees with a direct store lookup: filtering the store to the requested ids
does not change which record is found first. -/
theorem pMap_eq_findProduct {items : List CreateItem} {s : State} {pid : String}
    (hpid : pid ∈ items.map (fun i => i.productId)) :
    pMap items s pid = findProduct s pid := by
  unfold pMap ProductService.getProductsByIds ProductRepositoryImpl.findByIds findProduct
  congr 1
  apply find?_filter_weaker
  intro r hr
  have hr1 : r.1 = pid := by simpa using hr
  rw [hr1]
  simpa using hpid

/-- On the success path every requested line resolved to a stored product
(a missing product would have stock 0 under the default, failing the stock
check because quantities are positive). -/
theorem createOrder_ok_pMap_isSome {u : String} {items : List CreateItem}
    {s s' : State} {res : OrderResult}
    (h : OrderService.createOrder u items s = (s', Except.ok res)) :
    ∀ i ∈ items, ∃ p, findProduct s i.productId = some p ∧
      pMap items s i.productId = some p := by
  obtain ⟨-, hqty, -, hstock, -, -⟩ := createOrder_ok_shape h
  intro i hi
  have hpm : pMap items s i.productId = findProduct s i.productId :=
    pMap_eq_findProduct (List.mem_map_of_mem (fun i => i.productId) hi)
  cases hp : findProduct s i.productId with
  | some p => exact ⟨p, rfl, hpm.trans hp⟩
  | none =>
    have h1 := hstock i hi
    rw [hpm, hp] at h1
    have h2 := hqty i hi
    simp only [Option.getD_none, defaultProduct] at h1
    omega

/-- Summing the negated changes negates the summed changes. -/
theorem sum_map_neg {β : Type} (g : β → Int) :
    ∀ l : List β, (l.map (fun i => -(g i))).sum = -((l.map g).sum) := by
  intro l
  induction l with
  | nil => simp
  | cons a l ih =>
    simp only [List.map_cons, List.sum_cons, ih]
    ring

/-! ### Claim theorems -/

/-- C5: for every unit of work run under the transaction coordinator, either
the work succeeds and every write it issued is committed (the work's output
state becomes the durable state), or the work raises a failure, every write
issued so far is rolled back (the durable state is the entry state), and the
very same failure value is re-raised unchanged — never swallowed or
reclassified. -/
theorem withTransaction_commits_or_rolls_back {α : Type}
    (work : State → Except ApiErr (State × α)) (s : State) :
    (∀ s' a, work s = Except.ok (s', a) →
      OrderRepositoryImpl.withTransaction work s = (s', Except.ok a)) ∧
    (∀ e, work s = Except.error e →
      OrderRepositoryImpl.withTransaction work s = (s, Except.error e)) := by
  constructor
  · intro s' a hw
    unfold OrderRepositoryImpl.withTransaction
    rw [hw]
  · intro e hw
    unfold OrderRepositoryImpl.withTransaction
    rw [hw]

/-- Witness for C5: a failing unit of work is rolled back and its error is
re-raised unchanged. -/
theorem withTransaction_commits_or_rolls_back_witness :
    OrderRepositoryImpl.withTransaction exFailingWork exState
      = (exState, Except.error (validationError "boom")) :=
  (withTransaction_commits_or_rolls_back exFailingWork exState).2
    (validationError "boom") rfl

/-- C3: every failing `create` call fails with a `ValidationError` (status
400) and mutates no state — the durable state returned with the error is the
entry state, because all validation and stock checks precede the transaction
and the transactional work itself cannot fail. -/
theorem createOrder_failure_validation_no_mutation
    (u : String) (items : List CreateItem) (s : State) (e : ApiErr)
    (h : (OrderService.createOrder u items s).2 = Except.error e) :
    e.isValidation ∧ (OrderService.createOrder u items s).1 = s := by
  rcases createOrder_cases u items s with ⟨s', res, hok⟩ | ⟨msg, herr⟩
  · rw [hok] at h
    simp at h
  · rw [herr] at h
    simp only at h
    constructor
    · cases h
      rfl
    · rw [herr]

/-- Witness for C3: creating with an empty item list fails with status 400
and leaves the spec's example state untouched. -/
theorem createOrder_failure_validation_no_mutation_witness :
    (validationError "Order must contain at least one item").isValidation ∧
    (OrderService.createOrder "u1" [] exState).1 = exState :=
  createOrder_failure_validation_no_mutation "u1" [] exState
    (validationError "Order must contain at least one item") rfl

/-- Counterexample to C9 as stated: incrementing the stock of an item
identity absent from the store does not fail with `NotFoundError` — the
adapter resolves successfully with `null` (here `none`) and leaves the state
untouched; its type has no failure channel at all. -/
theorem updateProductStock_missing_returns_null :
    ProductService.updateProductStock "ghost" 3 exState = (none, exState) := by
  decide

/-- C9 amended: for every item identity that does not exist, the stock update
(increment or decrement) returns a null/not-found indication and changes
nothing; it raises no error. -/
theorem updateProductStock_missing (pid : String) (change : Int) (s : State)
    (h : findProduct s pid = none) :
    ProductService.updateProductStock pid change s = (none, s) := by
  have hnone : s.products.find? (fun r => r.1 == pid) = none := by
    unfold findProduct at h
    exact Option.map_eq_none.mp h
  have hall := List.find?_eq_none.mp hnone
  have hmap : s.products.map (fun r =>
      if r.1 == pid then (r.1, { r.2 with stock := r.2.stock + change }) else r)
      = s.products := by
    rw [List.map_congr_left (g := id) ?heach, List.map_id]
    case heach =>
      intro r hr
      have hne := hall r hr
      simp only [Bool.not_eq_true] at hne
      simp [hne]
  unfold ProductService.updateProductStock ProductRepositoryImpl.updateStock
  simp only [hmap]
  show (findProduct s pid, s) = (none, s)
  rw [h]

/-- Witness for C9's amended statement at a concrete missing identity. -/
theorem updateProductStock_missing_witness :
    ProductService.updateProductStock "zzz" 5 exState = (none, exState) :=
  updateProductStock_missing "zzz" 5 exState rfl

/-- C8: for an existing order, `pay` and `cancel` by an actor who is neither
the order's owner nor elevated fail with the 403 access-denied error (the
spec's `AuthorizationError`) and mutate nothing. -/
theorem pay_cancel_unauthorized (oid : Nat) (uid : String) (s : State) (o : Order)
    (hfind : OrderRepositoryImpl.findById oid s = some o)
    (hown : o.userId ≠ uid) :
    OrderService.payOrder oid uid false s
      = (s, Except.error (apiError "Access denied" 403)) ∧
    OrderService.cancelOrder oid uid false s
      = (s, Except.error (apiError "Access denied" 403)) ∧
    (apiError "Access denied" 403).isAuthorization := by
  refine ⟨?_, ?_, rfl⟩
  · simp [OrderService.payOrder, hfind, hown]
  · simp [OrderService.cancelOrder, hfind, hown]

/-- Witness for C8: a stranger can neither pay nor cancel u1's order. -/
theorem pay_cancel_unauthorized_witness :
    OrderService.payOrder 0 "intruder" false exCreatedState
      = (exCreatedState, Except.error (apiError "Access denied" 403)) ∧
    OrderService.cancelOrder 0 "intruder" false exCreatedState
      = (exCreatedState, Except.error (apiError "Access denied" 403)) ∧
    (apiError "Access denied" 403).isAuthorization :=
  pay_cancel_unauthorized 0 "intruder" exCreatedState exOrder rfl (by decide)

/-- C7: paying a cancelled order always fails with the `ConflictError`
"Cannot pay for a cancelled order" and leaves the durable state untouched, so
any number of repetitions leaves the order and all stock unchanged. -/
theorem pay_cancelled_always_conflicts (oid : Nat) (uid : String) (adm : Bool)
    (s : State) (o : Order)
    (hfind : OrderRepositoryImpl.findById oid s = some o)
    (hauth : adm = true ∨ o.userId = uid)
    (hst : o.status = OrderStatus.cancelled) :
    OrderService.payOrder oid uid adm s
      = (s, Except.error (conflictError "Cannot pay for a cancelled order")) ∧
    (conflictError "Cannot pay for a cancelled order").isConflict ∧
    ∀ n : Nat, (fun st => (OrderService.payOrder oid uid adm st).1)^[n] s = s := by
  have hc : (!adm && o.userId != uid) = false := by
    rcases hauth with h | h
    · subst h
      simp
    · simp [h]
  have hmain : OrderService.payOrder oid uid adm s
      = (s, Except.error (conflictError "Cannot pay for a cancelled order")) := by
    simp [OrderService.payOrder, hfind, hc, hst]
  refine ⟨hmain, rfl, ?_⟩
  intro n
  have hfix : (fun st => (OrderService.payOrder oid uid adm st).1) s = s := by
    show (OrderService.payOrder oid uid adm s).1 = s
    rw [hmain]
  exact Function.iterate_fixed hfix n

/-- C1: a successful `create` persists exactly one new order, in status
`created`, whose total is the sum over its line items of quantity times the
unit price snapshotted from the catalog at creation time, and decrements each
product's stock by exactly the total quantity requested for it (zero for
unreferenced products) — with the order write and the decrements applied in
the single transactional step that produces the returned state. -/
theorem createOrder_total_snapshot_stock
    (u : String) (items : List CreateItem) (s s' : State) (res : OrderResult)
    (h : OrderService.createOrder u items s = (s', Except.ok res)) :
    s'.orders = s.orders ++ [res.order] ∧
    res.order.status = OrderStatus.created ∧
    res.order.total = (res.order.items.map (fun i => i.quantity * i.unitPrice)).sum ∧
    res.order.items.map (fun i => (i.productId, i.quantity))
      = items.map (fun i => (i.productId, i.quantity)) ∧
    (∀ j ∈ res.order.items, ∃ p, findProduct s j.productId = some p ∧ j.unitPrice = p.price) ∧
    (∀ pid p, findProduct s pid = some p →
      findProduct s' pid = some { p with stock := p.stock - requestedQty items pid }) := by
  obtain ⟨hne, hqty, hlen, hstk, hres, hs'⟩ := createOrder_ok_shape h
  have hsome := createOrder_ok_pMap_isSome h
  have horder : res.order = (OrderRepositoryImpl.create u (snapItems items s) s).1 := by
    rw [hres]
  refine ⟨?_, ?_, ?_, ?_, ?_, ?_⟩
  · rw [horder, hs', foldl_updateStock_eq (fun i => i.productId) (fun i => -i.quantity) items]
    rfl
  · rw [horder]
    rfl
  · rw [horder]
    show (snapItems items s).foldl (fun sum i => sum + i.quantity * i.unitPrice) 0
      = ((snapItems items s).map (fun i => i.quantity * i.unitPrice)).sum
    rw [foldl_add_eq_sum (fun i : OrderItem => i.quantity * i.unitPrice) (snapItems items s) 0,
      zero_add]
  · rw [horder]
    show (snapItems items s).map (fun i => (i.productId, i.quantity)) = _
    simp only [snapItems, List.map_map]
    rfl
  · intro j hj
    rw [horder] at hj
    have hj2 : j ∈ snapItems items s := hj
    simp only [snapItems, List.mem_map] at hj2
    obtain ⟨i, hi, hji⟩ := hj2
    obtain ⟨p, hfp, hpm⟩ := hsome i hi
    subst hji
    refine ⟨p, hfp, ?_⟩
    show ((pMap items s i.productId).getD defaultProduct).price = p.price
    rw [hpm]
    rfl
  · intro pid p hfp
    rw [hs', findProduct_foldl_updateStock (fun i => i.productId) (fun i => -i.quantity) items _ pid]
    have hbase : findProduct (OrderRepositoryImpl.create u (snapItems items s) s).2 pid
        = findProduct s pid := rfl
    rw [hbase, hfp]
    have hsum : ((items.filter (fun i => i.productId == pid)).map (fun i => -i.quantity)).sum
        = -(requestedQty items pid) := by
      simp only [requestedQty]
      exact sum_map_neg (fun i : CreateItem => i.quantity) _
    simp only [Option.map_some', hsum, sub_eq_add_neg]

/-- Witness for C1 on the spec's scenario: create 3 × A from stock 10 at
price 500 yields total 1500 and stock 7. -/
theorem createOrder_total_snapshot_stock_witness :
    exStateAfterCreate.orders = exState.orders ++ [exOrder] ∧
    exOrder.status = OrderStatus.created ∧
    exOrder.total = (exOrder.items.map (fun i => i.quantity * i.unitPrice)).sum ∧
    exOrder.items.map (fun i => (i.productId, i.quantity))
      = [({ productId := "A", quantity := 3 } : CreateItem)].map (fun i => (i.productId, i.quantity)) ∧
    (∀ j ∈ exOrder.items, ∃ p, findProduct exState j.productId = some p ∧ j.unitPrice = p.price) ∧
    (∀ pid p, findProduct exState pid = some p →
      findProduct exStateAfterCreate pid
        = some { p with stock := p.stock
            - requestedQty [{ productId := "A", quantity := 3 }] pid }) :=
  createOrder_total_snapshot_stock "u1" [{ productId := "A", quantity := 3 }]
    exState exStateAfterCreate { order := exOrder, message := "Order created successfully" }
    rfl

/-- After `updateStatus`, looking the order up again returns it with the new
status (and nothing else changed). -/
theorem findById_after_updateStatus (oid : Nat) (st : OrderStatus) (s : State) :
    OrderRepositoryImpl.findById oid (OrderRepositoryImpl.updateStatus oid st s).2
      = (OrderRepositoryImpl.findById oid s).map (fun o => { o with status := st }) :=
  congrArg Prod.fst (updateStatus_eq oid st s)

/-- C6: `pay` is idempotent — on an already-paid order an authorized `pay`
returns the unchanged order with the "already paid" message, mutates nothing
and raises no error; and after paying a `created` order, a second authorized
`pay` is a no-op reporting "already paid", with status `paid` both times. -/
theorem pay_idempotent (oid : Nat) (uid : String) (adm : Bool) (s : State) (o : Order)
    (hfind : OrderRepositoryImpl.findById oid s = some o)
    (hauth : adm = true ∨ o.userId = uid) :
    (o.status = OrderStatus.paid →
      OrderService.payOrder oid uid adm s
        = (s, Except.ok { order := o, message := "Order is already paid" })) ∧
    (o.status = OrderStatus.created →
      (OrderService.payOrder oid uid adm s).2
        = Except.ok { order := { o with status := OrderStatus.paid }
                      message := "Payment successful" } ∧
      OrderService.payOrder oid uid adm (OrderService.payOrder oid uid adm s).1
        = ((OrderService.payOrder oid uid adm s).1,
           Except.ok { order := { o with status := OrderStatus.paid }
                       message := "Order is already paid" })) := by
  have hc : (!adm && o.userId != uid) = false := by
    rcases hauth with h | h
    · subst h
      simp
    · simp [h]
  constructor
  · intro hst
    simp [OrderService.payOrder, hfind, hc, hst]
  · intro hst
    have hupd : (OrderRepositoryImpl.updateStatus oid OrderStatus.paid s).1
        = some { o with status := OrderStatus.paid } := by
      have h2 := congrArg Prod.fst (updateStatus_eq oid OrderStatus.paid s)
      simpa [hfind] using h2
    have hfirst : OrderService.payOrder oid uid adm s
        = ((OrderRepositoryImpl.updateStatus oid OrderStatus.paid s).2,
           Except.ok { order := { o with status := OrderStatus.paid }
                       message := "Payment successful" }) := by
      simp [OrderService.payOrder, hfind, hc, hst, hupd]
    have hfind2 : OrderRepositoryImpl.findById oid
        (OrderRepositoryImpl.updateStatus oid OrderStatus.paid s).2
        = some { o with status := OrderStatus.paid } := by
      rw [findById_after_updateStatus, hfind]
      rfl
    refine ⟨by rw [hfirst], ?_⟩
    have hs1 : (OrderService.payOrder oid uid adm s).1
        = (OrderRepositoryImpl.updateStatus oid OrderStatus.paid s).2 := by
      rw [hfirst]
    rw [hs1]
    simp [OrderService.payOrder, hfind2, hc]

/-- C4: a successful `cancel` of an order in status `created` or `paid` sets
the status to `cancelled` and increments the stock of every item referenced
by the order's line items by exactly that line's quantity (the quantities
originally deducted), leaving every unreferenced product untouched — the
status update and the restorations applied in the single transactional step
that produces the returned state. -/
theorem cancel_restores_stock (oid : Nat) (uid : String) (adm : Bool)
    (s : State) (o : Order)
    (hfind : OrderRepositoryImpl.findById oid s = some o)
    (hauth : adm = true ∨ o.userId = uid)
    (hst : o.status = OrderStatus.created ∨ o.status = OrderStatus.paid)
    (hitems : (o.items.map (fun i => i.productId)).Nodup) :
    (OrderService.cancelOrder oid uid adm s).2
      = Except.ok { order := { o with status := OrderStatus.cancelled }
                    message := "Order cancelled successfully" } ∧
    OrderRepositoryImpl.findById oid (OrderService.cancelOrder oid uid adm s).1
      = some { o with status := OrderStatus.cancelled } ∧
    (∀ i ∈ o.items, ∀ p, findProduct s i.productId = some p →
      findProduct (OrderService.cancelOrder oid uid adm s).1 i.productId
        = some { p with stock := p.stock + i.quantity }) ∧
    (∀ pid, (∀ i ∈ o.items, i.productId ≠ pid) →
      findProduct (OrderService.cancelOrder oid uid adm s).1 pid = findProduct s pid) := by
  have hc : (!adm && o.userId != uid) = false := by
    rcases hauth with h | h
    · subst h
      simp
    · simp [h]
  have hupd : (OrderRepositoryImpl.updateStatus oid OrderStatus.cancelled s).1
      = some { o with status := OrderStatus.cancelled } := by
    have h2 := congrArg Prod.fst (updateStatus_eq oid OrderStatus.cancelled s)
    simpa [hfind] using h2
  have hmain : OrderService.cancelOrder oid uid adm s
      = (o.items.foldl (fun st i =>
           (ProductService.updateProductStock i.productId i.quantity st).2)
          (OrderRepositoryImpl.updateStatus oid OrderStatus.cancelled s).2,
         Except.ok { order := { o with status := OrderStatus.cancelled }
                     message := "Order cancelled successfully" }) := by
    rcases hst with h | h
    · simp [OrderService.cancelOrder, hfind, hc, h, OrderRepositoryImpl.withTransaction, hupd]
    · simp [OrderService.cancelOrder, hfind, hc, h, OrderRepositoryImpl.withTransaction, hupd]
  refine ⟨by rw [hmain], ?_, ?_, ?_⟩
  · simp only [hmain]
    rw [foldl_updateStock_eq (fun i => i.productId) (fun i => i.quantity) o.items]
    show OrderRepositoryImpl.findById oid
      (OrderRepositoryImpl.updateStatus oid OrderStatus.cancelled s).2 = _
    rw [findById_after_updateStatus, hfind]
    rfl
  · intro i hi p hfp
    simp only [hmain]
    rw [findProduct_foldl_updateStock (fun i => i.productId) (fun i => i.quantity) o.items _
      i.productId]
    have hbase : findProduct (OrderRepositoryImpl.updateStatus oid OrderStatus.cancelled s).2
        i.productId = findProduct s i.productId := rfl
    rw [hbase, hfp]
    rw [filter_eq_singleton_of_nodup (fun i => i.productId) hitems hi]
    simp
  · intro pid hno
    simp only [hmain]
    rw [findProduct_foldl_updateStock (fun i => i.productId) (fun i => i.quantity) o.items _ pid]
    have hbase : findProduct (OrderRepositoryImpl.updateStatus oid OrderStatus.cancelled s).2 pid
        = findProduct s pid := rfl
    rw [hbase, filter_eq_nil_of_not_mem (fun i : OrderItem => i.productId) hno]
    cases findProduct s pid with
    | none => rfl
    | some p => simp

/-- Witness for C4: cancelling u1's paid order restores item A to stock 10. -/
theorem cancel_restores_stock_witness :
    (OrderService.cancelOrder 0 "u1" false exPaidState).2
      = Except.ok { order := { exOrder with status := OrderStatus.cancelled }
                    message := "Order cancelled successfully" } ∧
    OrderRepositoryImpl.findById 0 (OrderService.cancelOrder 0 "u1" false exPaidState).1
      = some { exOrder with status := OrderStatus.cancelled } ∧
    (∀ i ∈ exOrder.items, ∀ p, findProduct exPaidState i.productId = some p →
      findProduct (OrderService.cancelOrder 0 "u1" false exPaidState).1 i.productId
        = some { p with stock := p.stock + i.quantity }) ∧
    (∀ pid, (∀ i ∈ exOrder.items, i.productId ≠ pid) →
      findProduct (OrderService.cancelOrder 0 "u1" false exPaidState).1 pid
        = findProduct exPaidState pid) :=
  cancel_restores_stock 0 "u1" false exPaidState { exOrder with status := OrderStatus.paid }
    rfl (Or.inr rfl) (Or.inr rfl) (by decide)

/-- Witness for C6: paying u1's created order, then paying again. -/
theorem pay_idempotent_witness :
    (exOrder.status = OrderStatus.paid →
      OrderService.payOrder 0 "u1" false exCreatedState
        = (exCreatedState,
           Except.ok { order := exOrder, message := "Order is already paid" })) ∧
    (exOrder.status = OrderStatus.created →
      (OrderService.payOrder 0 "u1" false exCreatedState).2
        = Except.ok { order := { exOrder with status := OrderStatus.paid }
                      message := "Payment successful" } ∧
      OrderService.payOrder 0 "u1" false (OrderService.payOrder 0 "u1" false exCreatedState).1
        = ((OrderService.payOrder 0 "u1" false exCreatedState).1,
           Except.ok { order := { exOrder with status := OrderStatus.paid }
                       message := "Order is already paid" })) :=
  pay_idempotent 0 "u1" false exCreatedState exOrder rfl (Or.inr rfl)

/-- The per-entry stock rewrite does not change the stored keys. -/
theorem keys_map_stock (l : List (String × Product)) (h : String × Product → Product) :
    (l.map (fun r => (r.1, h r))).map Prod.fst = l.map Prod.fst := by
  rw [List.map_map]
  rfl

/-- `cancelOrder` either leaves the state untouched (missing order, access
denied, idempotent no-op) or commits the status update together with the
per-line stock restorations of the found order. -/
theorem cancelOrder_state_cases (oid : Nat) (uid : String) (adm : Bool) (s : State) :
    (OrderService.cancelOrder oid uid adm s).1 = s ∨
    ∃ o, OrderRepositoryImpl.findById oid s = some o ∧
      (OrderService.cancelOrder oid uid adm s).1
        = o.items.foldl (fun st i =>
            (ProductService.updateProductStock i.productId i.quantity st).2)
          (OrderRepositoryImpl.updateStatus oid OrderStatus.cancelled s).2 := by
  unfold OrderService.cancelOrder
  cases hfind : OrderRepositoryImpl.findById oid s with
  | none => simp
  | some o =>
    simp only
    by_cases hc : (!adm && o.userId != uid) = true
    · rw [if_pos hc]
      exact Or.inl rfl
    · rw [if_neg hc]
      cases hos : o.status with
      | cancelled => exact Or.inl rfl
      | created =>
        refine Or.inr ⟨o, rfl, ?_⟩
        simp [OrderRepositoryImpl.withTransaction]
      | paid =>
        refine Or.inr ⟨o, rfl, ?_⟩
        simp [OrderRepositoryImpl.withTransaction]

/-- `createOrder` preserves the state invariant; in particular the per-line
stock checks guarantee the committed decrements never drive stock negative. -/
theorem createOrder_preserves_inv (u : String) (items : List CreateItem) (s : State)
    (h : Inv s) : Inv (OrderService.createOrder u items s).1 := by
  obtain ⟨hkey, hqtypos, hstock⟩ := h
  rcases createOrder_cases u items s with ⟨s', res, hok⟩ | ⟨msg, herr⟩
  · rw [hok]
    obtain ⟨hne, hq, hlen, hsuff, hresv, hs'⟩ := createOrder_ok_shape hok
    have hids : (items.map (fun i => i.productId)).Nodup := by
      refine ids_nodup_of_findByIds_length hkey ?_
      rw [hlen, List.length_map]
    show Inv s'
    rw [hs', foldl_updateStock_eq (fun i => i.productId) (fun i => -i.quantity) items]
    have hso : (OrderRepositoryImpl.create u (snapItems items s) s).2.orders
        = s.orders ++ [(OrderRepositoryImpl.create u (snapItems items s) s).1] := rfl
    refine ⟨?_, ?_, ?_⟩
    · unfold KeysNodup
      dsimp only
      rw [keys_map_stock]
      exact hkey
    · unfold QtyPos
      dsimp only
      rw [hso]
      intro o ho i hi
      rcases List.mem_append.mp ho with hmem | hmem
      · exact hqtypos o hmem i hi
      · have ho2 := List.mem_singleton.mp hmem
        subst ho2
        have hi2 : i ∈ snapItems items s := hi
        simp only [snapItems, List.mem_map] at hi2
        obtain ⟨i0, hi0, rfl⟩ := hi2
        exact hq i0 hi0
    · unfold StockNonneg
      dsimp only
      intro r hr
      obtain ⟨r0, hr0, rfl⟩ := List.mem_map.mp hr
      have hr0s : r0 ∈ s.products := hr0
      by_cases hex : ∃ i ∈ items, i.productId = r0.1
      · obtain ⟨i, hi, hip⟩ := hex
        have hfr0 : findProduct s r0.1 = some r0.2 := by
          unfold findProduct
          rw [assoc_find?_of_mem hkey hr0s]
          rfl
        have hle := hsuff i hi
        rw [pMap_eq_findProduct (List.mem_map_of_mem (fun i => i.productId) hi), hip, hfr0]
          at hle
        have hfilter : items.filter (fun j => j.productId == r0.1) = [i] := by
          rw [← hip]
          exact filter_eq_singleton_of_nodup (fun i => i.productId) hids hi
        show 0 ≤ r0.2.stock
          + ((items.filter (fun j => j.productId == r0.1)).map (fun i => -i.quantity)).sum
        rw [hfilter]
        simp only [List.map_cons, List.map_nil, List.sum_cons, List.sum_nil, add_zero,
          Option.getD_some] at hle ⊢
        omega
      · push_neg at hex
        have hfilter : items.filter (fun j => j.productId == r0.1) = [] :=
          filter_eq_nil_of_not_mem (fun i : CreateItem => i.productId) hex
        show 0 ≤ r0.2.stock
          + ((items.filter (fun j => j.productId == r0.1)).map (fun i => -i.quantity)).sum
        rw [hfilter]
        have h0 := hstock r0 hr0s
        simp only [List.map_nil, List.sum_nil, add_zero]
        exact h0
  · rw [herr]
    exact ⟨hkey, hqtypos, hstock⟩

/-- `cancelOrder` preserves the state invariant; quantities restored on
cancellation are positive, so stock can only grow. -/
theorem cancelOrder_preserves_inv (oid : Nat) (uid : String) (adm : Bool) (s : State)
    (h : Inv s) : Inv (OrderService.cancelOrder oid uid adm s).1 := by
  obtain ⟨hkey, hqtypos, hstock⟩ := h
  rcases cancelOrder_state_cases oid uid adm s with heq | ⟨o, hfind, heq⟩
  · rw [heq]
    exact ⟨hkey, hqtypos, hstock⟩
  · rw [heq, foldl_updateStock_eq (fun i => i.productId) (fun i => i.quantity) o.items]
    have homem : o ∈ s.orders := List.mem_of_find?_eq_some hfind
    have hxo : (OrderRepositoryImpl.updateStatus oid OrderStatus.cancelled s).2.orders
        = s.orders.map (fun o2 =>
            if o2.id == oid then { o2 with status := OrderStatus.cancelled } else o2) := rfl
    refine ⟨?_, ?_, ?_⟩
    · unfold KeysNodup
      dsimp only
      rw [keys_map_stock]
      exact hkey
    · unfold QtyPos
      dsimp only
      rw [hxo]
      intro o2 ho2 i hi
      obtain ⟨o0, ho0, rfl⟩ := List.mem_map.mp ho2
      by_cases hb : (o0.id == oid) = true
      · rw [if_pos hb] at hi
        exact hqtypos o0 ho0 i hi
      · rw [if_neg hb] at hi
        exact hqtypos o0 ho0 i hi
    · unfold StockNonneg
      dsimp only
      intro r hr
      obtain ⟨r0, hr0, rfl⟩ := List.mem_map.mp hr
      have h0 := hstock r0 hr0
      have hsum : 0 ≤ ((o.items.filter (fun j => j.productId == r0.1)).map
          (fun i => i.quantity)).sum := by
        apply List.sum_nonneg
        intro a ha
        obtain ⟨i, hi, rfl⟩ := List.mem_map.mp ha
        have hipos := hqtypos o homem i (List.mem_of_mem_filter hi)
        omega
      show 0 ≤ r0.2.stock
        + ((o.items.filter (fun j => j.productId == r0.1)).map (fun i => i.quantity)).sum
      omega

/-- One operation, run to completion, preserves the state invariant. -/
theorem applyOp_preserves_inv (s : State) (op : Op) (h : Inv s) : Inv (applyOp s op) := by
  cases op with
  | create u its => exact createOrder_preserves_inv u its s h
  | cancel oid u a => exact cancelOrder_preserves_inv oid u a s h

/-- Any sequence of operations preserves the state invariant. -/
theorem inv_runOps (ops : List Op) : ∀ s : State, Inv s → Inv (runOps s ops) := by
  induction ops with
  | nil => intro s h; exact h
  | cons op ops ih =>
    intro s h
    exact ih _ (applyOp_preserves_inv s op h)

/-- C2: in a well-formed store (unique product ids, positive stored line
quantities) with every stock non-negative, stock stays non-negative after any
sequence of create and cancel operations, each run to completion before the
next begins. -/
theorem stock_never_negative (s : State) (ops : List Op)
    (h1 : KeysNodup s) (h2 : QtyPos s) (h3 : StockNonneg s) :
    StockNonneg (runOps s ops) :=
  (inv_runOps ops s ⟨h1, h2, h3⟩).2.2

/-- Witness for C2: a successful create, its cancel, and an insufficient
create, starting from the spec's example catalog. -/
theorem stock_never_negative_witness :
    StockNonneg (runOps exState
      [Op.create "u1" [{ productId := "A", quantity := 3 }],
       Op.cancel 0 "u1" false,
       Op.create "u1" [{ productId := "B", quantity := 5 }]]) :=
  stock_never_negative exState
    [Op.create "u1" [{ productId := "A", quantity := 3 }],
     Op.cancel 0 "u1" false,
     Op.create "u1" [{ productId := "B", quantity := 5 }]]
    (by unfold KeysNodup; decide) (by unfold QtyPos; decide)
    (by unfold StockNonneg; decide)

/-- Counterexample to C10 as stated: the archetypal oversell input — item p1
has stock 3 and the request carries two lines for p1 of quantity 2 each, so
each line alone passes the per-line stock check while the sum 4 exceeds 3 —
does not make `create` succeed.  The batch catalog lookup returns one record
for the two requested ids, the count check `products.length !==
productIds.length` fails first, and the call raises a `ValidationError`
(with an empty missing-ids list) before any stock check or mutation. -/
theorem duplicate_lines_counterexample :
    OrderService.createOrder "u1"
        [{ productId := "p1", quantity := 2 }, { productId := "p1", quantity := 2 }] exDupState
      = (exDupState, Except.error (validationError "Products not found: ")) := by
  rfl

/-- C10 amended: when the items list names the same item identity in more
than one line, `create` always fails with a `ValidationError` before any
mutation — the duplicate-quantity oversell the claim describes is unreachable
because control never gets past the catalog-count check. -/
theorem duplicate_lines_always_rejected (u : String) (items : List CreateItem)
    (s : State) (hn : KeysNodup s)
    (hdup : ¬ (items.map (fun i => i.productId)).Nodup) :
    (OrderService.createOrder u items s).1 = s ∧
    ∃ e, (OrderService.createOrder u items s).2 = Except.error e ∧ e.isValidation := by
  rcases createOrder_cases u items s with ⟨s', res, hok⟩ | ⟨msg, herr⟩
  · exfalso
    obtain ⟨-, -, hlen, -, -, -⟩ := createOrder_ok_shape hok
    refine hdup (ids_nodup_of_findByIds_length hn ?_)
    rw [hlen, List.length_map]
  · rw [herr]
    exact ⟨rfl, validationError msg, rfl, rfl⟩

/-- Witness for C10's amended statement on a concrete duplicate request. -/
theorem duplicate_lines_always_rejected_witness :
    (OrderService.createOrder "u1"
        [{ productId := "p1", quantity := 1 }, { productId := "p1", quantity := 1 }] exDupState).1
      = exDupState ∧
    ∃ e, (OrderService.createOrder "u1"
        [{ productId := "p1", quantity := 1 }, { productId := "p1", quantity := 1 }] exDupState).2
      = Except.error e ∧ e.isValidation :=
  duplicate_lines_always_rejected "u1"
    [{ productId := "p1", quantity := 1 }, { productId := "p1", quantity := 1 }] exDupState
    (by unfold KeysNodup; decide) (by decide)

/-- Witness for C7 on a concrete cancelled order, repeated three times. -/
theorem pay_cancelled_always_conflicts_witness :
    OrderService.payOrder 0 "u1" false exCancelledState
      = (exCancelledState,
         Except.error (conflictError "Cannot pay for a cancelled order")) ∧
    (conflictError "Cannot pay for a cancelled order").isConflict ∧
    ∀ n : Nat, (fun st => (OrderService.payOrder 0 "u1" false st).1)^[n] exCancelledState
      = exCancelledState :=
  pay_cancelled_always_conflicts 0 "u1" false exCancelledState
    { exOrder with status := OrderStatus.cancelled } rfl (Or.inr rfl) rfl

end OrderCore
